import Mathlib

/-!
Verification development for the skill-provider front end of the repository
(web/service/use-tools.ts and web/app/components/tools/skill/).

The embedding models:
  * the type-keyed cache-invalidation helper `useInvalidToolsByType`,
  * `handleSubmit` and `handleFileChange` of the install modal as pure
    functions from modal state and a network outcome to a trace of
    observable effects (network call, cache invalidation, toast,
    confirm callback, modal close) plus the successor state,
  * `filteredList` and `currentProvider` of the skill list component.

JavaScript string built-ins used by the source (`trim`, `toLowerCase`,
`includes`, `endsWith`) are modelled by executable functions on the
character list underlying a Lean `String`.
-/

/-- True when the first character list starts with the second (the pattern). -/
def charsStartsWith : List Char → List Char → Bool
  | _, [] => true
  | [], _ :: _ => false
  | a :: s, b :: pat => a == b && charsStartsWith s pat

/-- True when the character list (second argument) contains the pattern
(first argument) as a contiguous sublist. -/
def charsContains (pat : List Char) : List Char → Bool
  | [] => charsStartsWith [] pat
  | a :: s => charsStartsWith (a :: s) pat || charsContains pat s

/-- Model of the JavaScript expression `s.includes(pat)`: substring
containment. -/
def strIncludes (s pat : String) : Bool :=
  charsContains pat.data s.data

/-- Model of the JavaScript expression `s.trim()`: strip leading and
trailing whitespace. -/
def jsTrim (s : String) : String :=
  ⟨((s.data.dropWhile Char.isWhitespace).reverse.dropWhile Char.isWhitespace).reverse⟩

/-- Model of the JavaScript expression `s.toLowerCase()`. -/
def jsToLower (s : String) : String :=
  ⟨s.data.map Char.toLower⟩

/-- Model of the JavaScript expression `s.endsWith(pat)`. -/
def jsEndsWith (s pat : String) : Bool :=
  charsStartsWith s.data.reverse pat.data.reverse

/-- Icon of a skill provider: either a plain string or a pair of a
background and a content field (use-tools.ts, type SkillProvider). -/
inductive Icon where
  | str (s : String)
  | obj (background content : String)
deriving DecidableEq, Repr

/-- The `source_type` field of a skill provider (use-tools.ts). -/
inductive SourceType where
  | git
  | upload
  | path
deriving DecidableEq, Repr

/-- The SkillProvider record (use-tools.ts, export type SkillProvider). -/
structure SkillProvider where
  id : String
  name : String
  skill_identifier : String
  description : String
  icon : Option Icon
  source_type : SourceType
  source_url : Option String
  version : String
  author : Option String
  has_scripts : Bool
  enabled : Bool
  created_at : String
  updated_at : Option String
deriving DecidableEq, Repr

/-- A file handed to the file input of the upload tab; only its name is
inspected by the component. -/
structure UploadFile where
  name : String
deriving DecidableEq, Repr

/-- A react-query cache key: a list of string segments. -/
abbrev QueryKey := List String

/-- One entry of the client-side query cache: its key and whether it has
been marked stale. -/
structure CacheEntry where
  key : QueryKey
  stale : Bool
deriving DecidableEq, Repr

/-- The client-side query cache. -/
abbrev Cache := List CacheEntry

/-- Modelled from the spec: invalidation marks the cached collection owned
by the given key stale; entries under other keys are untouched
(spec sections 3 and 4.1: mutation success must invalidate exactly the
keys whose underlying collection changed, no more, no less). -/
def invalidateQueries (c : Cache) (k : QueryKey) : Cache :=
  c.map fun e => if e.key = k then { e with stale := true } else e

/-- Modelled from the spec: `useInvalid` (web/service/use-base.ts, a file
not under src) returns a function that marks the corresponding cached
list stale; given no key there is no corresponding list, so no cache
mutation is performed (spec 4.1: resolve to the one correct cache key and
invalidate it; unknown types are a no-op, and an unrelated or undefined
key must not be invalidated). -/
def useInvalid (k : Option QueryKey) : Cache → Cache :=
  fun c =>
    match k with
    | none => c
    | some key => invalidateQueries c key

/-- Cache key of the built-in tools listing (use-tools.ts, useAllBuiltInToolsKey). -/
def useAllBuiltInToolsKey : QueryKey := ["tools", "builtIn"]

/-- Cache key of the custom tools listing (use-tools.ts, useAllCustomToolsKey). -/
def useAllCustomToolsKey : QueryKey := ["tools", "customTools"]

/-- Cache key of the workflow tools listing (use-tools.ts, useAllWorkflowToolsKey). -/
def useAllWorkflowToolsKey : QueryKey := ["tools", "workflowTools"]

/-- Cache key of the MCP tools listing (use-tools.ts, useAllMCPToolsKey). -/
def useAllMCPToolsKey : QueryKey := ["tools", "MCPTools"]

/-- Cache key of the skill tools listing (use-tools.ts, useAllSkillToolsKey). -/
def useAllSkillToolsKey : QueryKey := ["tools", "skillTools"]

/-- Cache key of the skill-provider list (use-tools.ts, useInvalidateSkillProviders). -/
def skillProvidersKey : QueryKey := ["tools", "skill-providers"]

/-- Modelled from the spec: the five provider-type names of the
`CollectionType` enum (types.ts, a file not under src; spec glossary:
provider type is one of builtIn, custom, workflow, mcp, skill). -/
def collectionTypeStrings : List String :=
  ["builtIn", "custom", "workflow", "mcp", "skill"]

/-- The record mapping a provider-type string to the cache key of its tool
listing (use-tools.ts, useInvalidToolsKeyMap); a JavaScript record lookup
at a missing key yields undefined, modelled as `none`. -/
def useInvalidToolsKeyMap (t : String) : Option QueryKey :=
  if t = "builtIn" then some useAllBuiltInToolsKey
  else if t = "custom" then some useAllCustomToolsKey
  else if t = "workflow" then some useAllWorkflowToolsKey
  else if t = "mcp" then some useAllMCPToolsKey
  else if t = "skill" then some useAllSkillToolsKey
  else none

/-- The type-keyed invalidation helper (use-tools.ts, useInvalidToolsByType):
the query key is `useInvalidToolsKeyMap[type]` when the type string is
truthy and undefined otherwise, and the result is `useInvalid(queryKey)`;
the empty string is falsy in JavaScript. -/
def useInvalidToolsByType (ty : Option String) : Cache → Cache :=
  useInvalid
    (match ty with
     | none => none
     | some t => if t = "" then none else useInvalidToolsKeyMap t)

/-- The tab selector of the modal (modal.tsx, type TabType). -/
inductive TabType where
  | git
  | upload
deriving DecidableEq, Repr

/-- The local state of the install modal (modal.tsx, the useState hooks of
SkillModal: activeTab, isLoading, gitUrl, gitBranch, name, file). -/
structure ModalState where
  activeTab : TabType
  isLoading : Bool
  gitUrl : String
  gitBranch : String
  name : String
  file : Option UploadFile
deriving DecidableEq, Repr

/-- Payload of the install-from-git request (use-tools.ts, useInstallSkill). -/
structure InstallPayload where
  source_type : String
  git_url : String
  git_branch : String
  name : Option String
deriving DecidableEq, Repr

/-- Payload of the upload request (use-tools.ts, useUploadSkill). -/
structure UploadPayload where
  file : UploadFile
  name : Option String
deriving DecidableEq, Repr

/-- A network request issued by the modal. -/
inductive Request where
  | install (p : InstallPayload)
  | upload (p : UploadPayload)
deriving DecidableEq, Repr

/-- Kind of a toast message (base/toast). -/
inductive ToastType where
  | success
  | error
deriving DecidableEq, Repr

/-- Observable effects of the modal handlers, in program order. -/
inductive Event where
  | setLoading (b : Bool)
  | networkCall (r : Request)
  | invalidate (k : QueryKey)
  | toast (ty : ToastType) (msg : String)
  | confirm (p : SkillProvider)
  | hide
deriving DecidableEq, Repr

/-- Outcome of the awaited network call: the server-returned provider on
success, or an error whose optional message field may also be empty. -/
abbrev NetResult := Except (Option String) SkillProvider

/-- Model of the JavaScript expression `error?.message || t(fallbackKey)`:
an absent or empty message falls back to the generic localized message. -/
def errMsg (e : Option String) (fallback : String) : String :=
  match e with
  | some m => if m = "" then fallback else m
  | none => fallback

/-- The submit handler of the modal (modal.tsx, handleSubmit), as a pure
function from the modal state and the outcome the network call would
produce to the ordered trace of effects and the successor state.
Mirrors the source: the git tab first validates the trimmed gitUrl, the
upload tab requires a selected file; a valid submission sets the loading
flag, awaits exactly one request, and on success invalidates the
skill-provider list, shows a success toast, invokes the confirm callback
with the returned provider and closes the modal; on failure it shows an
error toast; the finally block clears the loading flag. -/
def handleSubmit (s : ModalState) (net : NetResult) : List Event × ModalState :=
  match s.activeTab with
  | TabType.git =>
    if jsTrim s.gitUrl = "" then
      ([Event.toast ToastType.error "tools.skill.errors.gitUrlRequired"], s)
    else
      let payload : InstallPayload :=
        { source_type := "git"
          git_url := jsTrim s.gitUrl
          git_branch := if jsTrim s.gitBranch = "" then "main" else jsTrim s.gitBranch
          name := if jsTrim s.name = "" then none else some (jsTrim s.name) }
      match net with
      | Except.ok p =>
        ([Event.setLoading true,
          Event.networkCall (Request.install payload),
          Event.invalidate skillProvidersKey,
          Event.toast ToastType.success "tools.skill.installSuccess",
          Event.confirm p,
          Event.hide,
          Event.setLoading false],
         { s with isLoading := false })
      | Except.error e =>
        ([Event.setLoading true,
          Event.networkCall (Request.install payload),
          Event.toast ToastType.error (errMsg e "tools.skill.errors.installFailed"),
          Event.setLoading false],
         { s with isLoading := false })
  | TabType.upload =>
    match s.file with
    | none =>
      ([Event.toast ToastType.error "tools.skill.errors.fileRequired"], s)
    | some f =>
       let payload : UploadPayload :=
        { file := f
          name := if jsTrim s.name = "" then none else some (jsTrim s.name) }
       match net with
       | Except.ok p =>
        ([Event.setLoading true,
          Event.networkCall (Request.upload payload),
          Event.invalidate skillProvidersKey,
          Event.toast ToastType.success "tools.skill.installSuccess",
          Event.confirm p,
          Event.hide,
          Event.setLoading false],
         { s with isLoading := false })
       | Except.error e =>
        ([Event.setLoading true,
          Event.networkCall (Request.upload payload),
          Event.toast ToastType.error (errMsg e "tools.skill.errors.uploadFailed"),
          Event.setLoading false],
         { s with isLoading := false })

/-- The change handler of the file input on the upload tab (modal.tsx,
handleFileChange): the optional selected file is the first element of the
file list of the event target; a name not ending in .zip produces an
error toast and leaves the state untouched, otherwise the file state is
set. -/
def handleFileChange (s : ModalState) (selected : Option UploadFile) :
    List Event × ModalState :=
  match selected with
  | none => ([], s)
  | some f =>
    if jsEndsWith f.name ".zip" = false then
      ([Event.toast ToastType.error "tools.skill.errors.invalidFileType"], s)
    else
      ([], { s with file := some f })

/-- The click handlers of the tab buttons (modal.tsx): `setActiveTab`
changes only the active tab; every other state hook keeps its value. -/
def setActiveTab (s : ModalState) (tab : TabType) : ModalState :=
  { s with activeTab := tab }

/-- The name field a request carries. -/
def requestName : Request → Option String
  | Request.install p => p.name
  | Request.upload p => p.name

/-- Recognizes a network-call event. -/
def isNetCall : Event → Bool
  | Event.networkCall _ => true
  | _ => false

/-- Recognizes a cache-invalidation event. -/
def isInvalidateEvt : Event → Bool
  | Event.invalidate _ => true
  | _ => false

/-- Recognizes a success toast. -/
def isSuccessToast : Event → Bool
  | Event.toast ToastType.success _ => true
  | _ => false

/-- Recognizes an error toast. -/
def isErrorToast : Event → Bool
  | Event.toast ToastType.error _ => true
  | _ => false

/-- Recognizes an invocation of the confirm callback. -/
def isConfirmEvt : Event → Bool
  | Event.confirm _ => true
  | _ => false

/-- Recognizes the modal-close event. -/
def isHideEvt : Event → Bool
  | Event.hide => true
  | _ => false

/-- The filtering computation of the skill list (index.tsx, filteredList):
keep a provider when the search text is empty, otherwise when the
lower-cased name or skill identifier includes the lower-cased search
text. -/
def filteredList (l : List SkillProvider) (searchText : String) :
    List SkillProvider :=
  l.filter fun provider =>
    if searchText = "" then
      true
    else
      strIncludes (jsToLower provider.name) (jsToLower searchText)
        || strIncludes (jsToLower provider.skill_identifier) (jsToLower searchText)

/-- The filtering predicate in the words of the spec (spec 8: filtering is
case-insensitive substring match on name OR skill_identifier). -/
def specMatch (searchText : String) (p : SkillProvider) : Bool :=
  strIncludes (jsToLower p.name) (jsToLower searchText)
    || strIncludes (jsToLower p.skill_identifier) (jsToLower searchText)

/-- The current-provider lookup of the skill list (index.tsx,
currentProvider): find the list element whose id equals the selected
provider id; comparison with an undefined id is false. -/
def currentProvider (l : List SkillProvider) (cid : Option String) :
    Option SkillProvider :=
  l.find? fun provider => (some provider.id : Option String) == cid

/-- Whether the detail panel is rendered (index.tsx: the panel is rendered
exactly when `currentProvider` is defined). -/
def detailPanelShown (l : List SkillProvider) (cid : Option String) : Bool :=
  (currentProvider l cid).isSome

/-- A concrete skill provider used by witnesses. -/
def sampleProvider : SkillProvider :=
  { id := "skill-1", name := "Test Skill", skill_identifier := "test-skill"
    description := "A test skill", icon := none, source_type := SourceType.git
    source_url := none, version := "1.0.0", author := none, has_scripts := true
    enabled := true, created_at := "2024-01-01", updated_at := none }

/-- The first provider of the scenario collection in the claims. -/
def alphaP : SkillProvider :=
  { id := "s1", name := "Alpha", skill_identifier := "alpha", description := ""
    icon := none, source_type := SourceType.git, source_url := none
    version := "1.0.0", author := none, has_scripts := false, enabled := true
    created_at := "2024-01-01", updated_at := none }

/-- The second provider of the scenario collection in the claims. -/
def betaP : SkillProvider :=
  { alphaP with id := "s2", name := "Beta", skill_identifier := "beta" }

/-- A concrete modal state on the git tab used by witnesses. -/
def gitStateW : ModalState :=
  { activeTab := TabType.git, isLoading := false, gitUrl := " https://x/y "
    gitBranch := "  ", name := " My Skill ", file := none }

/-- Every string contains the empty string. -/
theorem strIncludes_empty (s : String) : strIncludes s "" = true := by
  unfold strIncludes
  cases s.data <;> simp [charsContains, charsStartsWith]

/-- C1: for every provider-type string that is not one of the five known
collection types, the type-keyed invalidation helper performs no cache
mutation: the cache is returned unchanged, so no key, known or undefined,
is invalidated. -/
theorem useInvalidToolsByType_unknown_noop (t : String) (c : Cache)
    (h : t ∉ collectionTypeStrings) :
    useInvalidToolsByType (some t) c = c := by
  simp only [collectionTypeStrings, List.mem_cons, List.not_mem_nil, or_false,
    not_or] at h
  obtain ⟨h1, h2, h3, h4, h5⟩ := h
  by_cases h0 : t = ""
  · simp [useInvalidToolsByType, useInvalid, h0]
  · simp [useInvalidToolsByType, useInvalid, useInvalidToolsKeyMap, h0, h1, h2, h3, h4, h5]

/-- Witness for C1 at the unknown type string plugin and a two-entry cache. -/
theorem useInvalidToolsByType_unknown_noop_witness :
    "plugin" ∉ collectionTypeStrings ∧
      useInvalidToolsByType (some "plugin")
          [CacheEntry.mk useAllBuiltInToolsKey false, CacheEntry.mk skillProvidersKey false]
        = [CacheEntry.mk useAllBuiltInToolsKey false, CacheEntry.mk skillProvidersKey false] :=
  ⟨by decide, useInvalidToolsByType_unknown_noop "plugin" _ (by decide)⟩

/-- C2: for every submission whose network call succeeds, the trace holds
exactly one invalidation, of the skill-provider list key, exactly one
success toast, exactly one confirm invocation carrying the
server-returned provider, and the modal-close event; none of these
events precedes the network call; and for the same submission state a
failing call produces none of them. -/
theorem handleSubmit_success_effects (s : ModalState) (p : SkillProvider)
    (h : ((handleSubmit s (Except.ok p)).1.any isNetCall) = true) :
    (handleSubmit s (Except.ok p)).1.filter isInvalidateEvt
        = [Event.invalidate skillProvidersKey]
      ∧ ((handleSubmit s (Except.ok p)).1.filter isSuccessToast).length = 1
      ∧ (handleSubmit s (Except.ok p)).1.filter isConfirmEvt = [Event.confirm p]
      ∧ Event.hide ∈ (handleSubmit s (Except.ok p)).1
      ∧ (((handleSubmit s (Except.ok p)).1.takeWhile fun ev => !isNetCall ev).all
          fun ev => !(isInvalidateEvt ev || isSuccessToast ev || isConfirmEvt ev
            || isHideEvt ev)) = true
      ∧ ∀ e : Option String,
          ((handleSubmit s (Except.error e)).1.all
            fun ev => !(isInvalidateEvt ev || isSuccessToast ev || isConfirmEvt ev
              || isHideEvt ev)) = true := by
  rcases s with ⟨tab, lo, gu, gb, nm, fl⟩
  cases tab
  · by_cases hv : jsTrim gu = ""
    · simp [handleSubmit, hv, isNetCall] at h
    · simp [handleSubmit, hv, isNetCall, isInvalidateEvt, isSuccessToast,
        isConfirmEvt, isHideEvt, List.takeWhile]
  · cases fl with
    | none => simp [handleSubmit, isNetCall] at h
    | some f =>
      simp [handleSubmit, isNetCall, isInvalidateEvt, isSuccessToast,
        isConfirmEvt, isHideEvt, List.takeWhile]

/-- Witness for C2 at a concrete valid git submission. -/
theorem handleSubmit_success_effects_witness :
    (handleSubmit gitStateW (Except.ok sampleProvider)).1.filter isInvalidateEvt
      = [Event.invalidate skillProvidersKey] :=
  (handleSubmit_success_effects gitStateW sampleProvider (by decide)).1

/-- C3: for every submission whose network call fails, no invalidation, no
confirm invocation and no modal close occur, and every form field (git
URL, branch, display name, selected file, active tab) keeps its
pre-submission value. -/
theorem handleSubmit_failure_frame (s : ModalState) (e : Option String)
    (h : ((handleSubmit s (Except.error e)).1.any isNetCall) = true) :
    ((handleSubmit s (Except.error e)).1.all
        fun ev => !(isInvalidateEvt ev || isConfirmEvt ev || isHideEvt ev)) = true
      ∧ (handleSubmit s (Except.error e)).2.gitUrl = s.gitUrl
      ∧ (handleSubmit s (Except.error e)).2.gitBranch = s.gitBranch
      ∧ (handleSubmit s (Except.error e)).2.name = s.name
      ∧ (handleSubmit s (Except.error e)).2.file = s.file
      ∧ (handleSubmit s (Except.error e)).2.activeTab = s.activeTab := by
  rcases s with ⟨tab, lo, gu, gb, nm, fl⟩
  cases tab
  · by_cases hv : jsTrim gu = ""
    · simp [handleSubmit, hv, isInvalidateEvt, isConfirmEvt, isHideEvt]
    · simp [handleSubmit, hv, isInvalidateEvt, isConfirmEvt, isHideEvt]
  · cases fl with
    | none => simp [handleSubmit, isInvalidateEvt, isConfirmEvt, isHideEvt]
    | some f => simp [handleSubmit, isInvalidateEvt, isConfirmEvt, isHideEvt]

/-- Witness for C3 at a concrete failing git submission. -/
theorem handleSubmit_failure_frame_witness :
    ((handleSubmit gitStateW (Except.error (some "boom"))).1.all
        fun ev => !(isInvalidateEvt ev || isConfirmEvt ev || isHideEvt ev)) = true
      ∧ (handleSubmit gitStateW (Except.error (some "boom"))).2.gitUrl = gitStateW.gitUrl
      ∧ (handleSubmit gitStateW (Except.error (some "boom"))).2.gitBranch = gitStateW.gitBranch
      ∧ (handleSubmit gitStateW (Except.error (some "boom"))).2.name = gitStateW.name
      ∧ (handleSubmit gitStateW (Except.error (some "boom"))).2.file = gitStateW.file
      ∧ (handleSubmit gitStateW (Except.error (some "boom"))).2.activeTab = gitStateW.activeTab :=
  handleSubmit_failure_frame gitStateW (some "boom") (by decide)

/-- C4: the filtered skill list is exactly the providers whose name or
skill identifier contains the search text as a case-insensitive
substring, in original order; the empty search text returns the
collection unchanged; and the scenario collection Alpha, Beta filtered by
alpha is exactly the singleton with id s1. -/
theorem filteredList_spec :
    (∀ l s, filteredList l s = l.filter (specMatch s))
      ∧ (∀ l, filteredList l "" = l)
      ∧ filteredList [alphaP, betaP] "alpha" = [alphaP] := by
  have key : ∀ l s, filteredList l s = l.filter (specMatch s) := by
    intro l s
    by_cases hs : s = ""
    · subst hs
      unfold filteredList
      refine List.filter_congr ?_
      intro p hp
      simp [specMatch, jsToLower, strIncludes_empty]
    · unfold filteredList specMatch
      simp [hs]
  refine ⟨key, ?_, ?_⟩
  · intro l
    simp [filteredList]
  · decide

/-- C5: every git-tab submission that passes validation sends exactly one
install request with source type git, the trimmed URL, the trimmed branch
defaulting to main when empty, and the trimmed display name or nothing
when empty. -/
theorem handleSubmit_git_payload (s : ModalState) (net : NetResult)
    (h1 : s.activeTab = TabType.git) (h2 : jsTrim s.gitUrl ≠ "") :
    (handleSubmit s net).1.filter isNetCall =
      [Event.networkCall (Request.install
        { source_type := "git"
          git_url := jsTrim s.gitUrl
          git_branch := if jsTrim s.gitBranch = "" then "main" else jsTrim s.gitBranch
          name := if jsTrim s.name = "" then none else some (jsTrim s.name) })] := by
  rcases s with ⟨tab, lo, gu, gb, nm, fl⟩
  simp only at h1
  subst h1
  cases net <;>
    simp [handleSubmit, h2, isNetCall]

/-- Witness for C5 at a concrete git state with blank branch field. -/
theorem handleSubmit_git_payload_witness :
    (handleSubmit gitStateW (Except.ok sampleProvider)).1.filter isNetCall =
      [Event.networkCall (Request.install
        { source_type := "git"
          git_url := jsTrim gitStateW.gitUrl
          git_branch := if jsTrim gitStateW.gitBranch = "" then "main" else jsTrim gitStateW.gitBranch
          name := if jsTrim gitStateW.name = "" then none else some (jsTrim gitStateW.name) })] :=
  handleSubmit_git_payload gitStateW (Except.ok sampleProvider) (by decide) (by decide)

/-- C6: a git-tab submission whose URL is empty or whitespace issues no
network call, shows an error toast, does not close the modal, and leaves
the state unchanged. -/
theorem handleSubmit_git_emptyUrl (s : ModalState) (net : NetResult)
    (h1 : s.activeTab = TabType.git) (h2 : jsTrim s.gitUrl = "") :
    ((handleSubmit s net).1.all fun ev => !isNetCall ev) = true
      ∧ ((handleSubmit s net).1.any isErrorToast) = true
      ∧ Event.hide ∉ (handleSubmit s net).1
      ∧ (handleSubmit s net).2 = s := by
  rcases s with ⟨tab, lo, gu, gb, nm, fl⟩
  simp only at h1
  subst h1
  simp [handleSubmit, h2, isNetCall, isErrorToast]

/-- Witness for C6 at a whitespace-only URL. -/
theorem handleSubmit_git_emptyUrl_witness :
    ((handleSubmit (ModalState.mk TabType.git false "   " "main" "" none)
        (Except.ok sampleProvider)).1.all fun ev => !isNetCall ev) = true
      ∧ ((handleSubmit (ModalState.mk TabType.git false "   " "main" "" none)
          (Except.ok sampleProvider)).1.any isErrorToast) = true
      ∧ Event.hide ∉ (handleSubmit (ModalState.mk TabType.git false "   " "main" "" none)
          (Except.ok sampleProvider)).1
      ∧ (handleSubmit (ModalState.mk TabType.git false "   " "main" "" none)
          (Except.ok sampleProvider)).2 = ModalState.mk TabType.git false "   " "main" "" none :=
  handleSubmit_git_emptyUrl (ModalState.mk TabType.git false "   " "main" "" none)
    (Except.ok sampleProvider) (by decide) (by decide)

/-- C7: selecting a file whose name does not end in .zip keeps the
selected-file state at its previous value and shows an error toast. -/
theorem handleFileChange_rejects_nonzip (s : ModalState) (f : UploadFile)
    (h : jsEndsWith f.name ".zip" = false) :
    (handleFileChange s (some f)).2.file = s.file
      ∧ ((handleFileChange s (some f)).1.any isErrorToast) = true := by
  simp [handleFileChange, h, isErrorToast]

/-- Witness for C7 at a tar file name. -/
theorem handleFileChange_rejects_nonzip_witness :
    (handleFileChange gitStateW (some (UploadFile.mk "skill.tar"))).2.file = gitStateW.file
      ∧ ((handleFileChange gitStateW (some (UploadFile.mk "skill.tar"))).1.any isErrorToast) = true :=
  handleFileChange_rejects_nonzip gitStateW (UploadFile.mk "skill.tar") (by decide)

/-- C8: an upload-tab submission with no selected file issues no network
call. -/
theorem handleSubmit_upload_noFile (s : ModalState) (net : NetResult)
    (h1 : s.activeTab = TabType.upload) (h2 : s.file = none) :
    ((handleSubmit s net).1.all fun ev => !isNetCall ev) = true := by
  rcases s with ⟨tab, lo, gu, gb, nm, fl⟩
  simp only at h1 h2
  subst h1
  subst h2
  simp [handleSubmit, isNetCall]

/-- Witness for C8 at a concrete upload state without a file. -/
theorem handleSubmit_upload_noFile_witness :
    ((handleSubmit (ModalState.mk TabType.upload false "" "main" "" none)
        (Except.ok sampleProvider)).1.all fun ev => !isNetCall ev) = true :=
  handleSubmit_upload_noFile (ModalState.mk TabType.upload false "" "main" "" none)
    (Except.ok sampleProvider) (by decide) (by decide)

/-- C9: a selected provider id that is the id of no element of the
collection makes the current-provider lookup yield nothing, and no detail
panel is rendered. -/
theorem currentProvider_unknown_id (l : List SkillProvider) (cid : String)
    (h : ∀ p ∈ l, p.id ≠ cid) :
    currentProvider l (some cid) = none ∧ detailPanelShown l (some cid) = false := by
  have hf : currentProvider l (some cid) = none := by
    apply List.find?_eq_none.mpr
    intro p hp
    simp [h p hp]
  exact ⟨hf, by simp [detailPanelShown, hf]⟩

/-- Witness for C9 at an id absent from the scenario collection. -/
theorem currentProvider_unknown_id_witness :
    currentProvider [alphaP, betaP] (some "zzz") = none
      ∧ detailPanelShown [alphaP, betaP] (some "zzz") = false :=
  currentProvider_unknown_id [alphaP, betaP] "zzz" (by decide)

/-- C10: the display-name field is one state variable shared by both tabs:
after switching to any tab, every network request a submission issues
carries the name value derived from that one field, trimmed, or nothing
when the trimmed value is empty. -/
theorem handleSubmit_shared_name (s : ModalState) (tab : TabType)
    (net : NetResult) (req : Request)
    (h : Event.networkCall req ∈ (handleSubmit (setActiveTab s tab) net).1) :
    requestName req = if jsTrim s.name = "" then none else some (jsTrim s.name) := by
  rcases s with ⟨t0, lo, gu, gb, nm, fl⟩
  cases tab
  · by_cases hv : jsTrim gu = ""
    · simp [handleSubmit, setActiveTab, hv] at h
    · cases net <;> simp [handleSubmit, setActiveTab, hv] at h <;>
        simp [h, requestName]
  · cases fl with
    | none => simp [handleSubmit, setActiveTab] at h
    | some f =>
      cases net <;> simp [handleSubmit, setActiveTab] at h <;>
        simp [h, requestName]

/-- Witness for C10: a name typed while the git tab was active is sent by
an upload-tab submission. -/
theorem handleSubmit_shared_name_witness :
    requestName (Request.upload (UploadPayload.mk (UploadFile.mk "a.zip") (some "My Skill")))
      = some "My Skill" :=
  handleSubmit_shared_name
    { gitStateW with file := some (UploadFile.mk "a.zip") } TabType.upload
    (Except.ok sampleProvider)
    (Request.upload (UploadPayload.mk (UploadFile.mk "a.zip") (some "My Skill")))
    (by decide)
